import Mathlib

/-!
Verification development for the html-minimizer-webpack-plugin core
(`src/index.js`): the optimize orchestrator, its cache short-circuit,
lazy worker-pool sizing and construction, the Throttle concurrency
limit, and the `buildError` / `buildWarning` diagnostics helpers.

The JavaScript is embedded shallowly: the asynchronous task list is
modelled as a sequential fold over an explicit `OptimizeState`, with an
event trace recording worker construction, minimizer invocations, cache
stores and asset-graph updates.  The content fingerprint (webpack's lazy
hashed etag) is modelled by the content string itself — a deterministic,
injective content hash.  The minimizer implementation and the external
cache store are abstract parameters of the run (`Ctx`), exactly as they
are external collaborators of the orchestrator.
-/

namespace HtmlMin

/-- A JavaScript value handed to `buildError` / `buildWarning`: either a
string, or an object carrying optional `message` and `stack` fields
(`isError` marks `instanceof Error`; `toStr` is its `toString()`). -/
inductive JSVal where
  | str (s : String)
  | obj (isError : Bool) (message : Option String) (stack : Option String) (toStr : String)
deriving DecidableEq, Repr

/-- JS truthiness of an optional string field: `undefined` and `""` are falsy. -/
def truthyStr : Option String → Bool
  | none => false
  | some s => !(s == "")

/-- Template interpolation of a possibly-undefined value: prints "undefined". -/
def jsTemplate (m : Option String) : String := m.getD "undefined"

/-- `` `${file} from Html Minimizer plugin\n` `` — the context prefixed to
every built error message (src/index.js lines 211, 220, 230). -/
def pluginHeader (file : String) : String := file ++ " from Html Minimizer plugin\n"

/-- The error object pushed to `compilation.errors`: an `Error` with a
`file` property attached. -/
structure BuiltError where
  message : String
  file : String
deriving DecidableEq, Repr

/-- `HtmlMinimizerPlugin.buildError` (src/index.js lines 204-235). -/
def buildError : JSVal → String → BuiltError
  | .str s, file => { message := pluginHeader file ++ s, file := file }
  | .obj _ m stk _, file =>
    if truthyStr stk then
      { message := pluginHeader file ++ m.getD "" ++ "\n" ++ stk.getD "", file := file }
    else
      { message := pluginHeader file ++ jsTemplate m, file := file }

/-- The warning object pushed to `compilation.warnings`: an `Error` named
"Warning" with `hideStack` and `file` attached. -/
structure BuiltWarning where
  message : String
  name : String
  hideStack : Bool
  file : String
deriving DecidableEq, Repr

/-- `HtmlMinimizerPlugin.buildWarning` (src/index.js lines 179-196). -/
def buildWarning : JSVal → String → BuiltWarning
  | .str s, file =>
    { message := s, name := "Warning", hideStack := true, file := file }
  | .obj isErr m _ ts, file =>
    { message :=
        if isErr then m.getD ""
        else match m with
          | some ms => ms
          | none => ts,
      name := "Warning", hideStack := true, file := file }

/-- The `parallel` option value: a boolean or a number
(src/index.js typedef `Parallel`; `undefined` is modelled by `Option`). -/
inductive Parallel where
  | bool (b : Bool)
  | num (n : Int)
deriving DecidableEq, Repr

/-- The constructor's destructuring default `parallel = true`
(src/index.js line 126). -/
def resolveParallel (opt : Option Parallel) : Parallel := opt.getD (.bool true)

/-- `HtmlMinimizerPlugin.getAvailableNumberOfCores` (src/index.js lines
242-250): `parallel === true ? cpus.length - 1
: Math.min(Number(parallel) || 0, cpus.length - 1)`. -/
def getAvailableNumberOfCores (cpusLength : Nat) : Parallel → Int
  | .bool true => (cpusLength : Int) - 1
  | .bool false => min 0 ((cpusLength : Int) - 1)
  | .num n => min n ((cpusLength : Int) - 1)

/-- The result of one `minify` call: `{ code, warnings?, errors? }`
(`InternalResult`; `Option` models possibly-undefined arrays). -/
structure MinifyOutput where
  code : String
  warnings : Option (List JSVal)
  errors : Option (List JSVal)
deriving DecidableEq, Repr

/-- A cache entry `{ source, errors, warnings }` as stored by
`cacheItem.storePromise` (src/index.js lines 393-397); `code` is the
content of the stored `RawSource`. -/
structure CacheEntry where
  code : String
  warnings : Option (List JSVal)
  errors : Option (List JSVal)
deriving DecidableEq, Repr

/-- An asset of the compilation: name, textual content, and its
`info.minimized` flag. -/
structure Asset where
  name : String
  content : String
  minimized : Bool
deriving DecidableEq, Repr

/-- One element of `assetsForMinify` (src/index.js lines 285-299): the
asset plus its cache-lookup result (`output`). -/
structure Item where
  name : String
  content : String
  output : Option CacheEntry
deriving DecidableEq, Repr

/-- Observable events of one optimize pass, in program order. -/
inductive Event where
  | workerConstruct
  | minifyCall (name : String)
  | cacheStore (name : String)
  | assetUpdate (name : String)
deriving DecidableEq, Repr

/-- External collaborators of one optimize pass: the configured
test/include/exclude match, the cache store (keyed by name and content
fingerprint), the minimizer invocation (in-process `minify` and the
worker `transform` compute the same function; a thrown error is
`.error`), and `availableNumberOfCores`. -/
structure Ctx where
  rule : String → Bool
  cache : String → String → Option CacheEntry
  minifyFn : String → String → Except JSVal MinifyOutput
  cores : Int

/-- The mutable state threaded through one optimize pass. -/
structure OptimizeState where
  assets : List Asset
  errors : List BuiltError
  warnings : List BuiltWarning
  cacheStores : List (String × String × CacheEntry)
  workerConstructions : Nat
  initializedWorker : Bool
  events : List Event
deriving DecidableEq, Repr

/-- The filter and cache phase (src/index.js lines 263-300): drop assets
already marked minimized or failing the rule match, and look each
survivor up in the cache by name and content fingerprint. -/
def survivingAssets (ctx : Ctx) (assets : List Asset) : List Item :=
  (assets.filter fun a => !a.minimized && ctx.rule a.name).map
    fun a => { name := a.name, content := a.content, output := ctx.cache a.name a.content }

/-- `numberOfAssets` (src/index.js lines 262, 294-296): the number of
surviving assets whose cache lookup missed. -/
def numberOfAssetsOf (ctx : Ctx) (assets : List Asset) : Nat :=
  (survivingAssets ctx assets).countP fun it => it.output.isNone

/-- `numberOfWorkers` (src/index.js lines 315-318), meaningful when
`availableNumberOfCores > 0`. -/
def numberOfWorkersOf (ctx : Ctx) (assets : List Asset) : Nat :=
  min (numberOfAssetsOf ctx assets) ctx.cores.toNat

/-- `compilation.updateAsset(name, source, { minimized: true })`
(src/index.js line 420): webpack merges the new info into the old. -/
def updateAssetList (name code : String) (assets : List Asset) : List Asset :=
  assets.map fun a =>
    if a.name = name then { a with content := code, minimized := true } else a

/-- The shared tail of a task (src/index.js lines 400-420): push each of
the output's warnings and errors built with the asset name, then update
the asset with the output source and `{ minimized: true }`. -/
def applyOutput (st : OptimizeState) (name : String) (out : CacheEntry) : OptimizeState :=
  { st with
    warnings := st.warnings ++ (out.warnings.getD []).map fun w => buildWarning w name,
    errors := st.errors ++ (out.errors.getD []).map fun e => buildError e name,
    assets := updateAssetList name out.code st.assets,
    events := st.events ++ [.assetUpdate name] }

/-- `getWorker()` (src/index.js lines 320-348): return the memoized
worker, constructing it on first call. -/
def acquireWorker (st : OptimizeState) : OptimizeState :=
  if st.initializedWorker then st
  else
    { st with
      initializedWorker := true,
      workerConstructions := st.workerConstructions + 1,
      events := st.events ++ [.workerConstruct] }

/-- One scheduled task (src/index.js lines 354-421).  A cache hit
replays the stored output; a miss calls the worker accessor when a pool
is enabled, invokes the minimizer, and on success stores the result in
the cache before updating the asset; a thrown minimization is caught and
recorded as a single built error, returning early. -/
def runTask (ctx : Ctx) (st : OptimizeState) (item : Item) : OptimizeState :=
  match item.output with
  | some out => applyOutput st item.name out
  | none =>
    let st1 := if 0 < ctx.cores then acquireWorker st else st
    let st2 := { st1 with events := st1.events ++ [Event.minifyCall item.name] }
    match ctx.minifyFn item.name item.content with
    | .error e => { st2 with errors := st2.errors ++ [buildError e item.name] }
    | .ok out =>
      let entry : CacheEntry :=
        { code := out.code, warnings := out.warnings, errors := out.errors }
      let st3 :=
        { st2 with
          cacheStores := st2.cacheStores ++ [(item.name, item.content, entry)],
          events := st2.events ++ [Event.cacheStore item.name] }
      applyOutput st3 item.name entry

/-- The state at the start of an optimize pass. -/
def initState (assets : List Asset) : OptimizeState :=
  { assets := assets, errors := [], warnings := [], cacheStores := [],
    workerConstructions := 0, initializedWorker := false, events := [] }

/-- The optimize pass (src/index.js lines 260-434): early exit when no
asset survives filtering, otherwise run every scheduled task. -/
def optimize (ctx : Ctx) (assets : List Asset) : OptimizeState :=
  let items := survivingAssets ctx assets
  if items.isEmpty then initState assets
  else items.foldl (runTask ctx) (initState assets)

/-- The concurrency limit passed to `throttleAll` (src/index.js lines
424-429): the worker count when a pool accessor exists and there is
pending work, else the number of scheduled tasks. -/
def optimizeLimit (ctx : Ctx) (assets : List Asset) : Nat :=
  if 0 < ctx.cores ∧ 0 < numberOfAssetsOf ctx assets then numberOfWorkersOf ctx assets
  else (survivingAssets ctx assets).length

/-- A rule matching every asset name. -/
def allRule : String → Bool := fun _ => true

/-- An empty cache store: every lookup misses. -/
def noCache : String → String → Option CacheEntry := fun _ _ => none

/-- A minimizer implementation that always succeeds cleanly. -/
def okMinify : String → String → Except JSVal MinifyOutput :=
  fun _ s => .ok { code := s ++ "!", warnings := none, errors := none }

/-- `n` distinct matching, non-minimized assets. -/
def sampleAssets (n : Nat) : List Asset :=
  (List.range n).map fun i =>
    { name := toString i ++ ".html", content := "c" ++ toString i, minimized := false }

/-- Run with `parallel: false` on a 4-core machine, empty cache. -/
def ctxSeq : Ctx :=
  { rule := allRule, cache := noCache, minifyFn := okMinify,
    cores := getAvailableNumberOfCores 4 (.bool false) }

/-- Run with `parallel: true` on a 4-core machine, empty cache. -/
def ctxPar : Ctx :=
  { rule := allRule, cache := noCache, minifyFn := okMinify,
    cores := getAvailableNumberOfCores 4 (.bool true) }

/-- A minimizer that throws "bad markup" for `b.html` and succeeds with
`"mini"` elsewhere. -/
def throwBMinify : String → String → Except JSVal MinifyOutput :=
  fun n _ =>
    if n = "b.html" then .error (.str "bad markup")
    else .ok { code := "mini", warnings := none, errors := none }

/-- Run where minimizing `b.html` throws, in-process, empty cache. -/
def ctxThrow : Ctx :=
  { rule := allRule, cache := noCache, minifyFn := throwBMinify, cores := 0 }

/-- The failing asset of the thrown-error scenario. -/
def assetB : Asset := { name := "b.html", content := "<p>bad</p>", minimized := false }

/-- The sibling asset of the thrown-error scenario. -/
def assetA : Asset := { name := "a.html", content := "<p> hi </p>", minimized := false }

/-- A minify result carrying code `"X"` and one reported error. -/
def errOut : MinifyOutput := { code := "X", warnings := none, errors := some [.str "boom"] }

/-- A minimizer that resolves with code `"X"` but reports one error in
the result's errors list. -/
def errListMinify : String → String → Except JSVal MinifyOutput := fun _ _ => .ok errOut

/-- Run where the minimizer returns a result carrying an error. -/
def ctxErrList : Ctx :=
  { rule := allRule, cache := noCache, minifyFn := errListMinify, cores := 0 }

/-- The asset fed to the result-carries-errors scenario. -/
def assetOrig : Asset := { name := "b.html", content := "orig", minimized := false }

/-- A stored cache entry with one warning and one error. -/
def hitEntry : CacheEntry :=
  { code := "m", warnings := some [.str "w"], errors := some [.str "x"] }

/-- A surviving asset whose cache lookup returned `hitEntry`. -/
def hitItem : Item := { name := "a.html", content := "c", output := some hitEntry }

/-- An in-process run context used by concrete witnesses. -/
def ctxPlain : Ctx :=
  { rule := allRule, cache := noCache, minifyFn := okMinify, cores := 0 }

/-- Run on a 4-cpu machine with the `parallel` option left absent, so
the constructor default applies. -/
def ctxAbsent : Ctx :=
  { rule := allRule, cache := noCache, minifyFn := okMinify,
    cores := getAvailableNumberOfCores 4 (resolveParallel none) }

/-- A cache-missed work item for `b.html`. -/
def missItemB : Item := { name := "b.html", content := "x", output := none }

/-- The cache-missed work item of the result-carries-errors scenario. -/
def missItemX : Item := { name := "b.html", content := "orig", output := none }

/-- An asset already flagged minimized by a child compilation. -/
def minAsset : Asset := { name := "done.html", content := "d", minimized := true }

theorem runTask_hit (ctx : Ctx) (st : OptimizeState) (it : Item) (out : CacheEntry)
    (h : it.output = some out) : runTask ctx st it = applyOutput st it.name out := by
  simp [runTask, h]

theorem runTask_throw (ctx : Ctx) (st : OptimizeState) (it : Item) (e : JSVal)
    (h : it.output = none) (hm : ctx.minifyFn it.name it.content = .error e) :
    runTask ctx st it =
      { (if 0 < ctx.cores then acquireWorker st else st) with
        events := (if 0 < ctx.cores then acquireWorker st else st).events ++
          [Event.minifyCall it.name],
        errors := (if 0 < ctx.cores then acquireWorker st else st).errors ++
          [buildError e it.name] } := by
  simp [runTask, h, hm]

theorem runTask_ok (ctx : Ctx) (st : OptimizeState) (it : Item) (out : MinifyOutput)
    (h : it.output = none) (hm : ctx.minifyFn it.name it.content = .ok out) :
    runTask ctx st it =
      applyOutput
        { (if 0 < ctx.cores then acquireWorker st else st) with
          events := ((if 0 < ctx.cores then acquireWorker st else st).events ++
            [Event.minifyCall it.name]) ++ [Event.cacheStore it.name],
          cacheStores := (if 0 < ctx.cores then acquireWorker st else st).cacheStores ++
            [(it.name, it.content,
              { code := out.code, warnings := out.warnings, errors := out.errors })] }
        it.name { code := out.code, warnings := out.warnings, errors := out.errors } := by
  simp [runTask, h, hm]

theorem applyOutput_worker (st : OptimizeState) (name : String) (out : CacheEntry) :
    (applyOutput st name out).initializedWorker = st.initializedWorker ∧
    (applyOutput st name out).workerConstructions = st.workerConstructions :=
  ⟨rfl, rfl⟩

theorem runTask_worker (ctx : Ctx) (st : OptimizeState) (it : Item) :
    ((runTask ctx st it).initializedWorker = true ↔
      (st.initializedWorker = true ∨ (0 < ctx.cores ∧ it.output = none))) ∧
    (runTask ctx st it).workerConstructions =
      st.workerConstructions +
        (if ¬ st.initializedWorker = true ∧ 0 < ctx.cores ∧ it.output = none then 1 else 0) := by
  cases h : it.output with
  | some out =>
    rw [runTask_hit ctx st it out h]
    simp [applyOutput, h]
  | none =>
    cases hm : ctx.minifyFn it.name it.content with
    | error e =>
      rw [runTask_throw ctx st it e h hm]
      by_cases hc : 0 < ctx.cores
      · by_cases hw : st.initializedWorker = true
        · simp [hc, hw, acquireWorker]
        · simp [hc, hw, acquireWorker]
      · simp [hc]
    | ok out =>
      rw [runTask_ok ctx st it out h hm]
      by_cases hc : 0 < ctx.cores
      · by_cases hw : st.initializedWorker = true
        · simp [hc, hw, acquireWorker, applyOutput]
        · simp [hc, hw, acquireWorker, applyOutput]
      · simp [hc, applyOutput]

theorem foldl_worker (ctx : Ctx) (items : List Item) :
    ∀ st : OptimizeState,
      ((items.foldl (runTask ctx) st).initializedWorker = true ↔
        (st.initializedWorker = true ∨
          (0 < ctx.cores ∧ 0 < items.countP fun it => it.output.isNone))) ∧
      (items.foldl (runTask ctx) st).workerConstructions =
        st.workerConstructions +
          (if ¬ st.initializedWorker = true ∧ 0 < ctx.cores ∧
              0 < items.countP (fun it => it.output.isNone) then 1 else 0) := by
  induction items with
  | nil => intro st; simp
  | cons it rest ih =>
    intro st
    obtain ⟨ih1, ih2⟩ := ih (runTask ctx st it)
    obtain ⟨h1, h2⟩ := runTask_worker ctx st it
    simp only [List.foldl_cons, List.countP_cons]
    constructor
    · rw [ih1, h1]
      by_cases ho : it.output = none
      · simp [ho, Option.isNone_iff_eq_none]
        by_cases hc : 0 < ctx.cores <;> by_cases hw : st.initializedWorker = true <;>
          simp [hc, hw]
      · simp only [Option.isNone_iff_eq_none]
        simp [ho]

    · rw [ih2, h2]
      simp only [h1]
      by_cases ho : it.output = none
      · simp only [Option.isNone_iff_eq_none]
        by_cases hc : 0 < ctx.cores <;> by_cases hw : st.initializedWorker = true <;>
          simp [ho, hc, hw]
      · simp only [Option.isNone_iff_eq_none]
        by_cases hc : 0 < ctx.cores <;> by_cases hw : st.initializedWorker = true <;>
          simp [ho, hc, hw]

theorem optimize_of_not_empty (ctx : Ctx) (assets : List Asset)
    (h : ¬ (survivingAssets ctx assets).isEmpty = true) :
    optimize ctx assets = (survivingAssets ctx assets).foldl (runTask ctx) (initState assets) := by
  simp [optimize, h]

theorem numberOfAssetsOf_of_empty (ctx : Ctx) (assets : List Asset)
    (h : (survivingAssets ctx assets).isEmpty = true) : numberOfAssetsOf ctx assets = 0 := by
  rw [numberOfAssetsOf, List.isEmpty_iff.mp h]
  rfl

/-- C8: within one optimize pass the worker pool is constructed exactly
once when a pool is enabled (`availableNumberOfCores > 0`) and at least
one surviving asset misses the cache, and never otherwise — in
particular a batch fully satisfied by cache hits constructs no pool, and
a cache-hit task itself never touches the pool accessor. -/
theorem worker_pool_lazy_singleton :
    (∀ (ctx : Ctx) (assets : List Asset),
        (optimize ctx assets).workerConstructions =
          if 0 < ctx.cores ∧ 0 < numberOfAssetsOf ctx assets then 1 else 0) ∧
    (∀ (ctx : Ctx) (st : OptimizeState) (it : Item) (out : CacheEntry),
        it.output = some out →
        (runTask ctx st it).workerConstructions = st.workerConstructions ∧
        (runTask ctx st it).initializedWorker = st.initializedWorker) := by
  constructor
  · intro ctx assets
    by_cases he : (survivingAssets ctx assets).isEmpty = true
    · rw [numberOfAssetsOf_of_empty ctx assets he]
      simp [optimize, he, initState]
    · rw [optimize_of_not_empty ctx assets he]
      obtain ⟨-, h2⟩ := foldl_worker ctx (survivingAssets ctx assets) (initState assets)
      rw [h2]
      simp [initState, numberOfAssetsOf]
  · intro ctx st it out h
    rw [runTask_hit ctx st it out h]
    exact ⟨rfl, rfl⟩

theorem worker_pool_lazy_singleton_witness :
    hitItem.output = some hitEntry ∧
    (runTask ctxPlain (initState []) hitItem).workerConstructions =
      (initState ([] : List Asset)).workerConstructions ∧
    (runTask ctxPlain (initState []) hitItem).initializedWorker =
      (initState ([] : List Asset)).initializedWorker :=
  ⟨rfl, (worker_pool_lazy_singleton.2 ctxPlain (initState []) hitItem hitEntry rfl).1,
    (worker_pool_lazy_singleton.2 ctxPlain (initState []) hitItem hitEntry rfl).2⟩

/-- C4 counterexample: the claim says an absent `parallel` value
disables the worker pool, but the constructor defaults `parallel` to
`true` (src/index.js line 126): on a 4-cpu machine the core budget is 3,
the pool is enabled, and a one-miss pass does construct a worker. -/
theorem parallel_absent_enables_pool_cex :
    resolveParallel none = Parallel.bool true ∧
    getAvailableNumberOfCores 4 (resolveParallel none) = 3 ∧
    ¬ getAvailableNumberOfCores 4 (resolveParallel none) ≤ 0 ∧
    (optimize ctxAbsent (sampleAssets 1)).workerConstructions = 1 := by
  refine ⟨rfl, rfl, by decide, ?_⟩
  decide

/-- C4 (amended): `parallel: true` — and, by the constructor default, an
absent value — yields a core budget of `availableCores - 1`; a number
`n` yields `min(n, availableCores - 1)`; `false` or a non-positive
number produces a non-positive budget, which disables the worker pool:
no worker is ever constructed and the Throttle limit falls back to the
task count (pure in-process execution). -/
theorem parallel_option_worker_sizing :
    resolveParallel none = Parallel.bool true ∧
    (∀ cpus : Nat, getAvailableNumberOfCores cpus (resolveParallel none) = (cpus : Int) - 1) ∧
    (∀ (cpus : Nat) (n : Int),
        getAvailableNumberOfCores cpus (.num n) = min n ((cpus : Int) - 1)) ∧
    (∀ cpus : Nat, getAvailableNumberOfCores cpus (.bool false) ≤ 0) ∧
    (∀ (cpus : Nat) (n : Int), n ≤ 0 → getAvailableNumberOfCores cpus (.num n) ≤ 0) ∧
    (∀ (ctx : Ctx) (assets : List Asset), ctx.cores ≤ 0 →
        (optimize ctx assets).workerConstructions = 0 ∧
        optimizeLimit ctx assets = (survivingAssets ctx assets).length) := by
  refine ⟨rfl, fun cpus => rfl, fun cpus n => rfl, ?_, ?_, ?_⟩
  · intro cpus
    exact min_le_left 0 _
  · intro cpus n hn
    exact le_trans (min_le_left n _) hn
  · intro ctx assets hc
    have hnc : ¬ 0 < ctx.cores := not_lt.mpr hc
    constructor
    · by_cases he : (survivingAssets ctx assets).isEmpty = true
      · simp [optimize, he, initState]
      · rw [optimize_of_not_empty ctx assets he]
        obtain ⟨-, h2⟩ := foldl_worker ctx (survivingAssets ctx assets) (initState assets)
        rw [h2]
        simp [initState, hnc]
    · rw [optimizeLimit, if_neg]
      intro hand
      exact hnc hand.1

theorem parallel_option_worker_sizing_witness :
    ((-2 : Int) ≤ 0 ∧ getAvailableNumberOfCores 4 (.num (-2)) ≤ 0) ∧
    (ctxPlain.cores ≤ 0 ∧
      (optimize ctxPlain (sampleAssets 2)).workerConstructions = 0 ∧
      optimizeLimit ctxPlain (sampleAssets 2) =
        (survivingAssets ctxPlain (sampleAssets 2)).length) :=
  ⟨⟨by decide, parallel_option_worker_sizing.2.2.2.2.1 4 (-2) (by decide)⟩,
    ⟨by decide,
      (parallel_option_worker_sizing.2.2.2.2.2 ctxPlain (sampleAssets 2) (by decide)).1,
      (parallel_option_worker_sizing.2.2.2.2.2 ctxPlain (sampleAssets 2) (by decide)).2⟩⟩

/-- C2: the Throttle limit is the computed worker count when a pool
accessor exists (`availableNumberOfCores > 0`) and the cache-miss count
is positive, and otherwise the total number of scheduled tasks; with
`parallel: false` on 4 cpus, 5 matching assets and no cache hits, no
worker is constructed and the limit is 5. -/
theorem throttle_limit_spec :
    (∀ (ctx : Ctx) (assets : List Asset),
        optimizeLimit ctx assets =
          if 0 < ctx.cores ∧
              0 < (survivingAssets ctx assets).countP (fun it => it.output.isNone) then
            min ((survivingAssets ctx assets).countP fun it => it.output.isNone) ctx.cores.toNat
          else (survivingAssets ctx assets).length) ∧
    ctxSeq.cores = getAvailableNumberOfCores 4 (.bool false) ∧
    (optimize ctxSeq (sampleAssets 5)).workerConstructions = 0 ∧
    (survivingAssets ctxSeq (sampleAssets 5)).length = 5 ∧
    numberOfAssetsOf ctxSeq (sampleAssets 5) = 5 ∧
    optimizeLimit ctxSeq (sampleAssets 5) = 5 := by
  refine ⟨fun ctx assets => rfl, rfl, ?_, ?_, ?_, ?_⟩ <;> decide

/-- C3: with `availableNumberOfCores > 0` the pool is sized to
`min(pendingWorkCount, availableNumberOfCores)` where the pending count
is the number of surviving assets whose cache lookup missed; with
`parallel: true` on 4 cpus, 10 matching assets and no cache hits, the
worker count and the Throttle limit are both `min(10, 3) = 3`. -/
theorem worker_count_min :
    (∀ (ctx : Ctx) (assets : List Asset), 0 < ctx.cores →
        (numberOfWorkersOf ctx assets : Int) =
          min (numberOfAssetsOf ctx assets : Int) ctx.cores) ∧
    getAvailableNumberOfCores 4 (.bool true) = 3 ∧
    numberOfAssetsOf ctxPar (sampleAssets 10) = 10 ∧
    numberOfWorkersOf ctxPar (sampleAssets 10) = 3 ∧
    optimizeLimit ctxPar (sampleAssets 10) = 3 := by
  refine ⟨?_, rfl, ?_, ?_, ?_⟩
  · intro ctx assets h
    rw [numberOfWorkersOf, Nat.cast_min, Int.toNat_of_nonneg h.le]
  all_goals decide

theorem worker_count_min_witness :
    0 < ctxPar.cores ∧
    (numberOfWorkersOf ctxPar (sampleAssets 10) : Int) =
      min ((numberOfAssetsOf ctxPar (sampleAssets 10) : Nat) : Int) ctxPar.cores :=
  ⟨by decide, worker_count_min.1 ctxPar (sampleAssets 10) (by decide)⟩

/-- C1: a task whose cache lookup returned a stored entry invokes no
minimizer implementation and touches neither the pool nor the cache: it
only replays the stored warnings and errors (built with the asset name)
into the build's sinks and updates the asset with the stored content and
`minimized: true` metadata. -/
theorem cache_hit_replays_without_minimizer (ctx : Ctx) (st : OptimizeState) (it : Item)
    (e : CacheEntry) (h : it.output = some e) :
    runTask ctx st it =
      { st with
        warnings := st.warnings ++ (e.warnings.getD []).map fun w => buildWarning w it.name,
        errors := st.errors ++ (e.errors.getD []).map fun x => buildError x it.name,
        assets := updateAssetList it.name e.code st.assets,
        events := st.events ++ [Event.assetUpdate it.name] } := by
  rw [runTask_hit ctx st it e h]
  rfl

theorem cache_hit_replays_witness :
    hitItem.output = some hitEntry ∧
    runTask ctxPlain (initState []) hitItem =
      { initState ([] : List Asset) with
        warnings := (initState ([] : List Asset)).warnings ++
          (hitEntry.warnings.getD []).map fun w => buildWarning w hitItem.name,
        errors := (initState ([] : List Asset)).errors ++
          (hitEntry.errors.getD []).map fun x => buildError x hitItem.name,
        assets := updateAssetList hitItem.name hitEntry.code (initState ([] : List Asset)).assets,
        events := (initState ([] : List Asset)).events ++ [Event.assetUpdate hitItem.name] } :=
  ⟨rfl, cache_hit_replays_without_minimizer ctxPlain (initState []) hitItem hitEntry rfl⟩

/-- C9: every built error and warning carries the originating asset name
in its `file` property; an error message is always prefixed with the
plugin-and-asset context, and when the underlying error carries a
(truthy) stack, the stack is preserved and appended after the message. -/
theorem diagnostics_tagged_and_wrapped :
    (∀ (v : JSVal) (file : String), (buildError v file).file = file) ∧
    (∀ (v : JSVal) (file : String), (buildWarning v file).file = file) ∧
    (∀ (v : JSVal) (file : String), ∃ rest,
        (buildError v file).message = file ++ " from Html Minimizer plugin\n" ++ rest) ∧
    (∀ (isE : Bool) (m : Option String) (s ts file : String), s ≠ "" →
        (buildError (.obj isE m (some s) ts) file).message =
          file ++ " from Html Minimizer plugin\n" ++ m.getD "" ++ "\n" ++ s) := by
  refine ⟨?_, ?_, ?_, ?_⟩
  · intro v file
    cases v with
    | str s => rfl
    | obj isE m stk ts =>
      simp only [buildError]
      split <;> rfl
  · intro v file
    cases v <;> rfl
  · intro v file
    cases v with
    | str s => exact ⟨s, rfl⟩
    | obj isE m stk ts =>
      simp only [buildError]
      split
      · exact ⟨m.getD "" ++ "\n" ++ stk.getD "", by simp [pluginHeader, String.append_assoc]⟩
      · exact ⟨jsTemplate m, rfl⟩
  · intro isE m s ts file hs
    have ht : truthyStr (some s) = true := by simp [truthyStr, hs]
    simp [buildError, ht, pluginHeader, String.append_assoc]

theorem diagnostics_tagged_witness :
    "stackline" ≠ "" ∧
    (buildError (.obj true (some "msg") (some "stackline") "t") "a.html").message =
      "a.html" ++ " from Html Minimizer plugin\n" ++ (some "msg").getD "" ++ "\n" ++ "stackline" :=
  ⟨by decide,
    diagnostics_tagged_and_wrapped.2.2.2 true (some "msg") "stackline" "t" "a.html" (by decide)⟩

theorem updateAssetList_getElem (name code : String) (l : List Asset) (i : Nat) (a : Asset)
    (hi : l[i]? = some a) (hne : a.name ≠ name) :
    (updateAssetList name code l)[i]? = some a := by
  rw [updateAssetList, List.getElem?_map, hi]
  simp [hne]

/-- C5: a thrown (rejected) minimization is caught at the task boundary:
the task appends exactly one built error tagged with the asset name and
changes nothing else — no asset content, no warning, no cache write; in
the two-asset scenario where minimizing `b.html` throws "bad markup",
the build carries one error tagged `b.html` containing "bad markup",
`b.html` keeps its content with `minimized` unset, and the sibling
`a.html` is still minimized. -/
theorem minify_throw_isolated :
    (∀ (ctx : Ctx) (st : OptimizeState) (it : Item) (e : JSVal),
        it.output = none → ctx.minifyFn it.name it.content = .error e →
        (runTask ctx st it).errors = st.errors ++ [buildError e it.name] ∧
        (runTask ctx st it).assets = st.assets ∧
        (runTask ctx st it).warnings = st.warnings ∧
        (runTask ctx st it).cacheStores = st.cacheStores) ∧
    ((optimize ctxThrow [assetB, assetA]).errors = [buildError (.str "bad markup") "b.html"] ∧
      (buildError (.str "bad markup") "b.html").file = "b.html" ∧
      (buildError (.str "bad markup") "b.html").message =
        "b.html from Html Minimizer plugin\nbad markup" ∧
      (optimize ctxThrow [assetB, assetA]).assets =
        [assetB, { assetA with content := "mini", minimized := true }] ∧
      (optimize ctxThrow [assetB, assetA]).warnings = []) := by
  constructor
  · intro ctx st it e h hm
    rw [runTask_throw ctx st it e h hm]
    by_cases hc : 0 < ctx.cores
    · by_cases hw : st.initializedWorker = true <;> simp [hc, hw, acquireWorker]
    · simp [hc]
  · decide

theorem minify_throw_isolated_witness :
    missItemB.output = none ∧
    ctxThrow.minifyFn missItemB.name missItemB.content = .error (.str "bad markup") ∧
    ((runTask ctxThrow (initState []) missItemB).errors =
        (initState ([] : List Asset)).errors ++ [buildError (.str "bad markup") missItemB.name] ∧
      (runTask ctxThrow (initState []) missItemB).assets = (initState ([] : List Asset)).assets ∧
      (runTask ctxThrow (initState []) missItemB).warnings =
        (initState ([] : List Asset)).warnings ∧
      (runTask ctxThrow (initState []) missItemB).cacheStores =
        (initState ([] : List Asset)).cacheStores) :=
  ⟨rfl, rfl,
    minify_throw_isolated.1 ctxThrow (initState []) missItemB (.str "bad markup") rfl rfl⟩

/-- C6 counterexample: when the minimization call resolves but its
result reports errors, the error is recorded — yet src/index.js lines
411-421 fall through to `updateAsset`, so the asset's content is
replaced and `minimized: true` is set, contradicting "original content
retained, minimized flag not set". -/
theorem result_errors_cex :
    (optimize ctxErrList [assetOrig]).errors = [buildError (.str "boom") "b.html"] ∧
    (optimize ctxErrList [assetOrig]).assets =
      [{ name := "b.html", content := "X", minimized := true }] ∧
    ¬ (optimize ctxErrList [assetOrig]).assets = [assetOrig] := by
  decide

/-- C6 (amended): errors reported in a resolved minify result's errors
list are recorded against that asset (each built with its name) and
other assets are untouched, but the asset is still updated with the
returned content and marked minimized, and the result — errors included
— is written to the cache; only a thrown/rejected minimization leaves
the asset unminimized with its original content. -/
theorem result_errors_recorded_asset_updated :
    (∀ (ctx : Ctx) (st : OptimizeState) (it : Item) (out : MinifyOutput),
        it.output = none → ctx.minifyFn it.name it.content = .ok out →
        (runTask ctx st it).errors =
          st.errors ++ (out.errors.getD []).map (fun e => buildError e it.name) ∧
        (runTask ctx st it).warnings =
          st.warnings ++ (out.warnings.getD []).map (fun w => buildWarning w it.name) ∧
        (runTask ctx st it).assets = updateAssetList it.name out.code st.assets ∧
        (runTask ctx st it).cacheStores =
          st.cacheStores ++
            [(it.name, it.content,
              { code := out.code, warnings := out.warnings, errors := out.errors })]) ∧
    (∀ (name code : String) (l : List Asset) (i : Nat) (a : Asset),
        l[i]? = some a → a.name ≠ name → (updateAssetList name code l)[i]? = some a) := by
  constructor
  · intro ctx st it out h hm
    rw [runTask_ok ctx st it out h hm]
    by_cases hc : 0 < ctx.cores
    · by_cases hw : st.initializedWorker = true <;> simp [hc, hw, acquireWorker, applyOutput]
    · simp [hc, applyOutput]
  · exact fun name code l i a hi hne => updateAssetList_getElem name code l i a hi hne

theorem result_errors_recorded_witness :
    missItemX.output = none ∧
    ctxErrList.minifyFn missItemX.name missItemX.content = .ok errOut ∧
    ((runTask ctxErrList (initState [assetOrig]) missItemX).errors =
        (initState [assetOrig]).errors ++
          (errOut.errors.getD []).map (fun e => buildError e missItemX.name) ∧
      (runTask ctxErrList (initState [assetOrig]) missItemX).assets =
        updateAssetList missItemX.name errOut.code (initState [assetOrig]).assets) :=
  ⟨rfl, rfl,
    (result_errors_recorded_asset_updated.1 ctxErrList (initState [assetOrig]) missItemX
      errOut rfl rfl).1,
    (result_errors_recorded_asset_updated.1 ctxErrList (initState [assetOrig]) missItemX
      errOut rfl rfl).2.2.1⟩

theorem runTask_assets_pres (ctx : Ctx) (st : OptimizeState) (it : Item) (i : Nat) (a : Asset)
    (hi : st.assets[i]? = some a) (hne : a.name ≠ it.name) :
    (runTask ctx st it).assets[i]? = some a := by
  cases h : it.output with
  | some out =>
    rw [runTask_hit ctx st it out h]
    exact updateAssetList_getElem it.name out.code st.assets i a hi hne
  | none =>
    cases hm : ctx.minifyFn it.name it.content with
    | error e =>
      rw [runTask_throw ctx st it e h hm]
      by_cases hc : 0 < ctx.cores
      · by_cases hw : st.initializedWorker = true <;> simp [hc, hw, acquireWorker, hi]
      · simpa [hc] using hi
    | ok out =>
      rw [runTask_ok ctx st it out h hm]
      refine updateAssetList_getElem it.name out.code _ i a ?_ hne
      by_cases hc : 0 < ctx.cores
      · by_cases hw : st.initializedWorker = true <;> simp [hc, hw, acquireWorker, hi]
      · simpa [hc] using hi

theorem foldl_assets_pres (ctx : Ctx) (items : List Item) :
    ∀ (st : OptimizeState) (i : Nat) (a : Asset),
      st.assets[i]? = some a → (∀ it ∈ items, it.name ≠ a.name) →
      ((items.foldl (runTask ctx) st).assets)[i]? = some a := by
  induction items with
  | nil => intro st i a hi _; exact hi
  | cons it rest ih =>
    intro st i a hi hne
    exact ih (runTask ctx st it) i a
      (runTask_assets_pres ctx st it i a hi
        (fun hEq => hne it (List.mem_cons_self it rest) hEq.symm))
      (fun x hx => hne x (List.mem_cons_of_mem _ hx))

theorem survivingAssets_name (ctx : Ctx) (assets : List Asset) (it : Item)
    (h : it ∈ survivingAssets ctx assets) :
    ∃ b ∈ assets, (!b.minimized && ctx.rule b.name) = true ∧ it.name = b.name := by
  rw [survivingAssets] at h
  obtain ⟨b, hb, heq⟩ := List.mem_map.mp h
  have hbf := List.mem_filter.mp hb
  exact ⟨b, hbf.1, hbf.2, by rw [← heq]⟩

/-- C7: an asset already flagged minimized, or failing the configured
test/include/exclude match, has no task scheduled for it (its name is
not among the surviving work items) and is byte-identical in the output
asset set. -/
theorem skipped_assets_untouched (ctx : Ctx) (assets : List Asset) (a : Asset) (i : Nat)
    (hnd : (assets.map Asset.name).Nodup)
    (hi : assets[i]? = some a)
    (hskip : a.minimized = true ∨ ctx.rule a.name = false) :
    (∀ it ∈ survivingAssets ctx assets, it.name ≠ a.name) ∧
    ((optimize ctx assets).assets)[i]? = some a := by
  have ha : a ∈ assets := List.getElem?_mem hi
  have hfail : ¬ ((!a.minimized && ctx.rule a.name) = true) := by
    rcases hskip with h | h <;> simp [h]
  have hnames : ∀ it ∈ survivingAssets ctx assets, it.name ≠ a.name := by
    intro it hit heq
    obtain ⟨b, hbmem, hbf, hbn⟩ := survivingAssets_name ctx assets it hit
    have hba : b = a := List.inj_on_of_nodup_map hnd hbmem ha (by rw [← hbn, heq])
    exact hfail (hba ▸ hbf)
  refine ⟨hnames, ?_⟩
  by_cases he : (survivingAssets ctx assets).isEmpty = true
  · simpa [optimize, he, initState] using hi
  · rw [optimize_of_not_empty ctx assets he]
    exact foldl_assets_pres ctx _ (initState assets) i a hi hnames

theorem skipped_assets_untouched_witness :
    (([minAsset, assetA].map Asset.name).Nodup ∧
      [minAsset, assetA][0]? = some minAsset ∧
      (minAsset.minimized = true ∨ ctxPlain.rule minAsset.name = false)) ∧
    ((∀ it ∈ survivingAssets ctxPlain [minAsset, assetA], it.name ≠ minAsset.name) ∧
      ((optimize ctxPlain [minAsset, assetA]).assets)[0]? = some minAsset) :=
  ⟨⟨by decide, rfl, Or.inl rfl⟩,
    skipped_assets_untouched ctxPlain [minAsset, assetA] minAsset 0 (by decide) rfl
      (Or.inl rfl)⟩

theorem runTask_stores_count (ctx : Ctx) (st : OptimizeState) (it : Item) (n : String) :
    ((runTask ctx st it).cacheStores.countP fun s => s.1 == n) ≤
      (st.cacheStores.countP fun s => s.1 == n) + (if it.name = n then 1 else 0) := by
  cases h : it.output with
  | some out =>
    rw [runTask_hit ctx st it out h]
    exact Nat.le_add_right _ _
  | none =>
    cases hm : ctx.minifyFn it.name it.content with
    | error e =>
      rw [runTask_throw ctx st it e h hm]
      have hst : ((if 0 < ctx.cores then acquireWorker st else st).cacheStores.countP
          fun s => s.1 == n) = st.cacheStores.countP fun s => s.1 == n := by
        by_cases hc : 0 < ctx.cores
        · by_cases hw : st.initializedWorker = true <;> simp [hc, hw, acquireWorker]
        · simp [hc]
      simp only [hst]
      exact Nat.le_add_right _ _
    | ok out =>
      rw [runTask_ok ctx st it out h hm]
      have hst : ((if 0 < ctx.cores then acquireWorker st else st).cacheStores.countP
          fun s => s.1 == n) = st.cacheStores.countP fun s => s.1 == n := by
        by_cases hc : 0 < ctx.cores
        · by_cases hw : st.initializedWorker = true <;> simp [hc, hw, acquireWorker]
        · simp [hc]
      by_cases hn : it.name = n <;>
        simp [applyOutput, List.countP_append, hst, hn]

theorem foldl_stores_count (ctx : Ctx) (items : List Item) :
    ∀ (st : OptimizeState) (n : String),
      ((items.foldl (runTask ctx) st).cacheStores.countP fun s => s.1 == n) ≤
        (st.cacheStores.countP fun s => s.1 == n) + (items.countP fun it => it.name == n) := by
  induction items with
  | nil => intro st n; simp
  | cons it rest ih =>
    intro st n
    have h1 := ih (runTask ctx st it) n
    have h2 := runTask_stores_count ctx st it n
    rw [List.countP_cons]
    by_cases hn : it.name = n <;> simp [hn] at h2 ⊢ <;> omega

theorem survivingAssets_names (ctx : Ctx) (assets : List Asset) :
    (survivingAssets ctx assets).map Item.name =
      (assets.filter fun a => !a.minimized && ctx.rule a.name).map Asset.name := by
  rw [survivingAssets, List.map_map]
  rfl

theorem survivingAssets_names_nodup (ctx : Ctx) (assets : List Asset)
    (hnd : (assets.map Asset.name).Nodup) :
    ((survivingAssets ctx assets).map Item.name).Nodup := by
  rw [survivingAssets_names]
  exact List.Sublist.nodup
    (List.Sublist.map Asset.name (List.filter_sublist assets)) hnd

theorem nodup_countP_le_one (items : List Item)
    (h : (items.map Item.name).Nodup) (n : String) :
    (items.countP fun it => it.name == n) ≤ 1 := by
  have heq : (items.countP fun it => it.name == n) = (items.map Item.name).count n := by
    rw [List.count, List.countP_map]
    rfl
  rw [heq]
  exact List.nodup_iff_count_le_one.mp h n

/-- C10: the cache store runs only on the success path of a cache miss —
after the minimization call resolves and before the asset-graph update,
as the event trace shows; a thrown minimization and a cache hit leave
the cache untouched, and over a whole pass with distinct asset names at
most one cache write occurs per asset. -/
theorem cache_store_success_only :
    (∀ (ctx : Ctx) (st : OptimizeState) (it : Item) (e : JSVal),
        it.output = none → ctx.minifyFn it.name it.content = .error e →
        (runTask ctx st it).cacheStores = st.cacheStores) ∧
    (∀ (ctx : Ctx) (st : OptimizeState) (it : Item) (out : CacheEntry),
        it.output = some out → (runTask ctx st it).cacheStores = st.cacheStores) ∧
    (∀ (ctx : Ctx) (st : OptimizeState) (it : Item) (out : MinifyOutput),
        it.output = none → ctx.minifyFn it.name it.content = .ok out →
        (runTask ctx st it).cacheStores =
          st.cacheStores ++
            [(it.name, it.content,
              { code := out.code, warnings := out.warnings, errors := out.errors })] ∧
        (runTask ctx st it).events =
          st.events ++
            (if 0 < ctx.cores ∧ ¬ st.initializedWorker = true
              then [Event.workerConstruct] else []) ++
            [Event.minifyCall it.name, Event.cacheStore it.name,
              Event.assetUpdate it.name]) ∧
    (∀ (ctx : Ctx) (assets : List Asset) (n : String),
        (assets.map Asset.name).Nodup →
        ((optimize ctx assets).cacheStores.countP fun s => s.1 == n) ≤ 1) := by
  refine ⟨?_, ?_, ?_, ?_⟩
  · intro ctx st it e h hm
    rw [runTask_throw ctx st it e h hm]
    by_cases hc : 0 < ctx.cores
    · by_cases hw : st.initializedWorker = true <;> simp [hc, hw, acquireWorker]
    · simp [hc]
  · intro ctx st it out h
    rw [runTask_hit ctx st it out h]
    rfl
  · intro ctx st it out h hm
    rw [runTask_ok ctx st it out h hm]
    by_cases hc : 0 < ctx.cores
    · by_cases hw : st.initializedWorker = true <;>
        simp [hc, hw, acquireWorker, applyOutput, List.append_assoc]
    · simp [hc, applyOutput, List.append_assoc]
  · intro ctx assets n hnd
    by_cases he : (survivingAssets ctx assets).isEmpty = true
    · simp [optimize, he, initState]
    · rw [optimize_of_not_empty ctx assets he]
      have h1 := foldl_stores_count ctx (survivingAssets ctx assets) (initState assets) n
      have h2 := nodup_countP_le_one (survivingAssets ctx assets)
        (survivingAssets_names_nodup ctx assets hnd) n
      have h0 : ((initState assets).cacheStores.countP fun s => s.1 == n) = 0 := rfl
      omega

theorem cache_store_success_only_witness :
    ((sampleAssets 2).map Asset.name).Nodup ∧
    ((optimize ctxPlain (sampleAssets 2)).cacheStores.countP
      fun s => s.1 == "0.html") ≤ 1 :=
  ⟨by decide, cache_store_success_only.2.2.2 ctxPlain (sampleAssets 2) "0.html" (by decide)⟩

end HtmlMin
